import Mathlib

/-!
Shallow embedding of the "need to book" proximity-search and ranking routes
of the calendar assistant (the event classifier, the candidate search, the
proximity ranker with its driving-distance strategy and its simplified
time-proximity fallback, and the day-keyed aggregation), together with
theorems settling the specification claims about them.

Numeric conventions: JavaScript `number` arithmetic on timestamps, day
gaps and kilometre values is modelled over `ℚ` (exact arithmetic); the
trigonometric haversine computation is modelled over `ℝ`.  Timestamps are
modelled by the integer millisecond instant that `new Date(s).getTime()`
yields for the source string.
-/

namespace NeedToBook

/-- A calendar event as consumed by the routes.  The source's `start`
field (an RFC3339 `dateTime` or an all-day `date`, plus an optional
timezone) is modelled by the instant it parses to: `startMs` is
`new Date(event.start.dateTime || event.start.date).getTime()` in
milliseconds since the Unix epoch, and `startTzOffsetMin` is the UTC
offset in minutes of the event's local wall-clock time (information
present in the source string but discarded by `getTime`).  Events are
modelled with a start present, as the routes skip the exceptional ones
without.  Presentation-only fields (`description`, `end`, `htmlLink`)
are never read by any of the modelled logic and are omitted. -/
structure CalendarEvent where
  id : String
  summary : Option String
  startMs : Int
  startTzOffsetMin : Int
  location : Option String
deriving DecidableEq

/-- JS `Math.abs`. -/
def jsAbs (q : ℚ) : ℚ := if q < 0 then -q else q

/-- Whether `needle` is a prefix of some suffix of the second argument. -/
def containsAux (needle : List Char) : List Char → Bool
  | [] => needle.isEmpty
  | c :: rest => needle.isPrefixOf (c :: rest) || containsAux needle rest

/-- JS `hay.includes(needle)`: substring containment. -/
def strContains (hay needle : String) : Bool :=
  containsAux needle.toList hay.toList

/-- JS `s.toLowerCase()`: character-wise lowercasing. -/
def toLowerStr (s : String) : String :=
  String.mk (s.data.map Char.toLower)

/-- JS `s.trim()`: strip leading and trailing whitespace. -/
def trimStr (s : String) : String :=
  String.mk (((s.data.dropWhile Char.isWhitespace).reverse.dropWhile Char.isWhitespace).reverse)

/-- JS `!event.summary?.toLowerCase().includes('need to book')` without the
leading negation: a missing title never matches the marker. -/
def titleHasMarker (e : CalendarEvent) : Bool :=
  match e.summary with
  | none => false
  | some s => strContains (toLowerStr s) "need to book"

/-- The classifier's test, JS
`event.summary && event.summary.toLowerCase().includes('need to book')`:
the extra truthiness test on the title (an empty string is falsy) is kept
as in the source. -/
def classifyIsTarget (e : CalendarEvent) : Bool :=
  match e.summary with
  | none => false
  | some s => (s != "") && strContains (toLowerStr s) "need to book"

/-- The event classifier: partition of the fetched events into the
"needs booking" targets (title matches the marker) and the ordinary
events, the latter being exactly the events the candidate loop does not
skip as marker-titled. -/
def classify (events : List CalendarEvent) : List CalendarEvent × List CalendarEvent :=
  (events.filter classifyIsTarget, events.filter fun e => !classifyIsTarget e)

/-- JS `event.location && event.location.trim() !== ''` (candidate filter
of the search endpoint). -/
def locationNonBlank (e : CalendarEvent) : Bool :=
  match e.location with
  | none => false
  | some l => (l != "") && (trimStr l != "")

/-- JS `!event.location` (guard of the multi-calendar route, no trim):
the location is present and not the empty string. -/
def locationTruthy (e : CalendarEvent) : Bool :=
  match e.location with
  | none => false
  | some l => l != ""

/-- JS `Math.abs((eventDate.getTime() - targetDate.getTime()) / (1000 * 60 * 60 * 24))`:
the day gap between two events as an exact, unrounded rational number of
(possibly fractional) days. -/
def dayDiffQ (target e : CalendarEvent) : ℚ :=
  jsAbs (((e.startMs : ℚ) - (target.startMs : ℚ)) / (1000 * 60 * 60 * 24))

/-- The candidate filter `eventsToSearch` of the search endpoint:
`event.id !== needToBookEvent.id && event.location && event.location.trim() !== ''
&& !event.summary?.toLowerCase().includes('need to book')`. -/
def eventFilterOk (tgt e : CalendarEvent) : Bool :=
  (e.id != tgt.id) && locationNonBlank e && !titleHasMarker e

/-- A candidate paired with its computed `distance` in kilometres
(real, or synthetic under the fallback).  The source entries also carry a
`date` display string (`eventDate.toDateString()`, rendered in the
server's local timezone); that string is presentation-only and is not
consumed by any modelled logic, so it is omitted here. -/
structure JobEntry where
  event : CalendarEvent
  distance : ℚ
deriving DecidableEq

/-- Ascending order on entry distances, the comparator
`(a, b) => a.distance - b.distance` of the source's sorts. -/
def distLe (a b : JobEntry) : Prop := a.distance ≤ b.distance

instance : DecidableRel distLe :=
  fun a b => inferInstanceAs (Decidable (a.distance ≤ b.distance))

instance : IsTotal JobEntry distLe := ⟨fun a b => le_total a.distance b.distance⟩

instance : IsTrans JobEntry distLe := ⟨fun _ _ _ hab hbc => le_trans hab hbc⟩

/-- The entries `performSimplifiedSearch` pushes, in discovery order,
before the final sort: events passing the candidate filter whose day gap
is at most 7, with synthetic distance
`Math.max(0.1, dayDiff * 10)` (10 km per day of gap, floored at 0.1 km). -/
def simplifiedEntries (tgt : CalendarEvent) (pool : List CalendarEvent) : List JobEntry :=
  (pool.filter (eventFilterOk tgt)).filterMap fun e =>
    let dd := dayDiffQ tgt e
    if dd ≤ 7 then some ⟨e, max (1/10 : ℚ) (dd * 10)⟩ else none

/-- The time-proximity fallback of the search endpoint.  The source's
final `sort((a, b) => a.distance - b.distance)` is a stable sort by
distance (JS array sort is stable), which yields the same list as
insertion sort by the non-strict order on distances. -/
def performSimplifiedSearch (tgt : CalendarEvent) (pool : List CalendarEvent) : List JobEntry :=
  List.insertionSort distLe (simplifiedEntries tgt pool)

/-- The candidate search of the specification as the code realises it:
the candidate filter followed by the 7-day window test, preserving pool
order (ranking happens downstream). -/
def findCandidates (tgt : CalendarEvent) (pool : List CalendarEvent) : List CalendarEvent :=
  (pool.filter (eventFilterOk tgt)).filter fun e => decide (dayDiffQ tgt e ≤ 7)

/-- One element of a Distance Matrix response row: its `status` string and
its `distance.value` in metres. -/
structure DMElement where
  status : String
  meters : ℚ
deriving DecidableEq

/-- The outcome of one Distance Matrix service call, as seen by
`getDrivingDistance`: either the `fetch`/parse threw (network failure or
timeout), or a payload with a top-level `status` and `rows` of elements
arrived. -/
inductive DistApiResponse where
  | netError : DistApiResponse
  | payload (status : String) (rows : List (List DMElement)) : DistApiResponse
deriving DecidableEq

/-- `getDrivingDistance`: accept the payload only when the top-level
status is OK, a first row with a first element exists, and that element's
status is OK; then convert metres to kilometres.  Every other outcome
(thrown error, non-OK status, missing rows or elements) yields `null`,
modelled as `none`. -/
def getDrivingDistance : DistApiResponse → Option ℚ
  | .netError => none
  | .payload status rows =>
    if status = "OK" then
      match rows with
      | (el :: _) :: _ => if el.status = "OK" then some (el.meters / 1000) else none
      | _ => none
    else none

/-- The per-target candidate loop of the multi-calendar route, over the
pooled events of the searched calendars in fetch order.  It returns the
`(origin, destination)` pairs for which a Distance Matrix call is issued
(exactly one call per surviving candidate, no retries) together with the
entries pushed: events with a truthy location and id, within 7 days of
the target, whose lookup succeeded with a distance of at most 20 km.
`api` maps an `(origin, destination)` pair to that call's outcome. -/
def rankLoop (api : String → String → DistApiResponse) (tgt : CalendarEvent)
    (tgtLoc : String) : List CalendarEvent → List (String × String) × List JobEntry
  | [] => ([], [])
  | e :: rest =>
    let tail := rankLoop api tgt tgtLoc rest
    match e.location with
    | none => tail
    | some loc =>
      if loc = "" then tail
      else if e.id = "" then tail
      else if 7 < dayDiffQ tgt e then tail
      else
        ((tgtLoc, loc) :: tail.1,
          match getDrivingDistance (api tgtLoc loc) with
          | none => tail.2
          | some d => if d ≤ 20 then ⟨e, d⟩ :: tail.2 else tail.2)

/-- The ranked nearby jobs for one target: the loop's entries sorted
ascending by distance (`sort((a, b) => a.distance - b.distance)`, a
stable sort). -/
def rankNearby (api : String → String → DistApiResponse) (tgt : CalendarEvent)
    (tgtLoc : String) (pool : List CalendarEvent) : List JobEntry :=
  List.insertionSort distLe (rankLoop api tgt tgtLoc pool).2

/-- Proleptic-Gregorian civil date `(year, month, day)` of a day count
relative to 1970-01-01 (the civil-from-days algorithm used by date
libraries; all intermediate quantities are non-negative, so floor
division agrees with the truncating division of the original). -/
def civilFromDays (z0 : Int) : Int × Int × Int :=
  let z := z0 + 719468
  let era := Int.fdiv z 146097
  let doe := z - era * 146097
  let yoe := Int.fdiv (doe - Int.fdiv doe 1460 + Int.fdiv doe 36524 - Int.fdiv doe 146096) 365
  let y := yoe + era * 400
  let doy := doe - (365 * yoe + Int.fdiv yoe 4 - Int.fdiv yoe 100)
  let mp := Int.fdiv (5 * doy + 2) 153
  let d := doy - Int.fdiv (153 * mp + 2) 5 + 1
  let m := if mp < 10 then mp + 3 else mp - 9
  (if m ≤ 2 then y + 1 else y, m, d)

/-- Left-pad the decimal rendering of a non-negative integer to two
digits. -/
def pad2 (n : Int) : String :=
  if n < 10 then "0" ++ toString n else toString n

/-- Left-pad the decimal rendering of a non-negative integer to four
digits (years 0–9999, the range `toISOString` renders without an
expanded sign). -/
def pad4 (n : Int) : String :=
  if n < 10 then "000" ++ toString n
  else if n < 100 then "00" ++ toString n
  else if n < 1000 then "0" ++ toString n
  else toString n

/-- `new Date(ms).toISOString().split('T')[0]`: the ISO `YYYY-MM-DD`
rendering of the UTC calendar day containing the instant `ms`
(`toISOString` always formats in UTC). -/
def toISODate (ms : Int) : String :=
  let c := civilFromDays (Int.fdiv ms 86400000)
  pad4 c.1 ++ "-" ++ pad2 c.2.1 ++ "-" ++ pad2 c.2.2

/-- Modelled from the spec: the "target's local calendar day" that §4.3
says `dayKey` is derived from — the civil day of the target's start in
the target's own local timezone (its start instant shifted by its local
UTC offset), rendered as ISO `YYYY-MM-DD`.  This notion appears in the
spec only; the code never consults the event's timezone offset. -/
def specLocalDayKey (e : CalendarEvent) : String :=
  toISODate (e.startMs + e.startTzOffsetMin * 60000)

/-- One value of the `nearbyJobsByDay` mapping: the target event of that
day together with its ranked candidate entries. -/
structure DayOpportunity where
  needToBookEvent : CalendarEvent
  nearbyJobs : List JobEntry
deriving DecidableEq

/-- JS object assignment `obj[k] = v` on a string-keyed object modelled
as an association list: an existing key is overwritten in place, a new
key is appended. -/
def setKey (m : List (String × DayOpportunity)) (k : String) (v : DayOpportunity) :
    List (String × DayOpportunity) :=
  if m.any fun p => p.1 = k then
    m.map fun p => if p.1 = k then (k, v) else p
  else m ++ [(k, v)]

/-- One iteration of the multi-calendar route's target loop: skip a
target with a falsy location; rank its nearby jobs; record an entry under
the target's `dayKey` only when at least one nearby job survived. -/
def processStep (api : String → String → DistApiResponse) (pool : List CalendarEvent)
    (m : List (String × DayOpportunity)) (t : CalendarEvent) :
    List (String × DayOpportunity) :=
  match t.location with
  | none => m
  | some loc =>
    if loc = "" then m
    else
      let nearby := rankNearby api t loc pool
      if nearby.isEmpty then m
      else setKey m (toISODate t.startMs) ⟨t, nearby⟩

/-- The whole `nearbyJobsByDay` aggregation of the multi-calendar route:
fold the target loop over the "Need to Book" events in fetch order,
starting from the empty object. -/
def processTargets (api : String → String → DistApiResponse) (pool : List CalendarEvent)
    (targets : List CalendarEvent) : List (String × DayOpportunity) :=
  targets.foldl (processStep api pool) []

/-- JS `Math.atan2 y x`: the argument of the point `(x, y)`. -/
noncomputable def atan2 (y x : ℝ) : ℝ := Complex.arg ⟨x, y⟩

/-- `calculateDistance`: the haversine great-circle distance between two
latitude/longitude pairs (in degrees) on a spherical Earth of radius
6371 km, exactly as the source computes it. -/
noncomputable def calculateDistance (lat1 lon1 lat2 lon2 : ℝ) : ℝ :=
  let R : ℝ := 6371
  let dLat := (lat2 - lat1) * Real.pi / 180
  let dLon := (lon2 - lon1) * Real.pi / 180
  let a := Real.sin (dLat / 2) * Real.sin (dLat / 2) +
    Real.cos (lat1 * Real.pi / 180) * Real.cos (lat2 * Real.pi / 180) *
    Real.sin (dLon / 2) * Real.sin (dLon / 2)
  let c := 2 * atan2 (Real.sqrt a) (Real.sqrt (1 - a))
  R * c

/-- The external geodata environment of the search endpoint: whether a
Maps API key is configured (the same key enables both geocoding and
distance lookups), and the geocoder's answer per address
(`null` for a failed or not-found geocode). -/
structure GeoEnv where
  hasApiKey : Bool
  geocode : String → Option (ℝ × ℝ)

/-- Ascending order on geocode-strategy entries by their real distance. -/
def rdistLe (a b : CalendarEvent × ℝ) : Prop := a.2 ≤ b.2

noncomputable instance : DecidableRel rdistLe :=
  fun a b => Real.decidableLE a.2 b.2

instance : IsTotal (CalendarEvent × ℝ) rdistLe := ⟨fun a b => le_total a.2 b.2⟩

instance : IsTrans (CalendarEvent × ℝ) rdistLe := ⟨fun _ _ _ hab hbc => le_trans hab hbc⟩

/-- The geocode + great-circle strategy of the search endpoint: for each
event passing the candidate filter, geocode its location (a failed
geocode drops that candidate only), compute the haversine distance from
the already-geocoded target coordinates, keep it when at most 20 km, and
sort ascending by distance. -/
noncomputable def geocodeSearch (env : GeoEnv) (tgt : CalendarEvent) (c0 : ℝ × ℝ)
    (pool : List CalendarEvent) : List (CalendarEvent × ℝ) :=
  let entries := (pool.filter (eventFilterOk tgt)).filterMap fun e =>
    match e.location with
    | none => none
    | some loc =>
      match env.geocode loc with
      | none => none
      | some c =>
        let d := calculateDistance c0.1 c0.2 c.1 c.2
        if d ≤ 20 then some (e, d) else none
  List.insertionSort rdistLe entries

/-- The JSON body the search endpoint returns on its non-error paths:
the nearby jobs and the optional degradation warning. -/
structure PostResult where
  nearbyJobs : List (CalendarEvent × ℝ)
  warning : Option String

/-- Lift a fallback entry (rational synthetic distance) into the response
entry shape. -/
def simplifiedEntryR (p : JobEntry) : CalendarEvent × ℝ := (p.event, (p.distance : ℝ))

/-- The search endpoint's POST handler after authentication, in source
order: with no API key configured, answer with the simplified
time-proximity search plus a warning (before any look at the target's
location); otherwise with a falsy target location answer an empty list
(a normal result, no warning); otherwise geocode the target — on failure
fall back to the simplified search plus a warning, on success run the
geocode + great-circle strategy with no warning. -/
noncomputable def postSearch (env : GeoEnv) (tgt : CalendarEvent)
    (allEvents : List CalendarEvent) : PostResult :=
  if env.hasApiKey = false then
    { nearbyJobs := (performSimplifiedSearch tgt allEvents).map simplifiedEntryR
      warning := some "Distance calculations unavailable - using simplified search. Configure GOOGLE_MAPS_API_KEY for accurate distances." }
  else
    match tgt.location with
    | none => { nearbyJobs := [], warning := none }
    | some loc =>
      if loc = "" then { nearbyJobs := [], warning := none }
      else
        match env.geocode loc with
        | none =>
          { nearbyJobs := (performSimplifiedSearch tgt allEvents).map simplifiedEntryR
            warning := some "Geocoding failed for target location - using simplified time-based search" }
        | some c0 =>
          { nearbyJobs := geocodeSearch env tgt c0 allEvents, warning := none }

/-- The endpoint reaches the time-proximity fallback exactly when no API
key is configured, or a key exists and the target's truthy location fails
to geocode. -/
def usedFallback (env : GeoEnv) (tgt : CalendarEvent) : Bool :=
  !env.hasApiKey ||
    (match tgt.location with
     | none => false
     | some loc => if loc = "" then false else (env.geocode loc).isNone)

/-- The guards of one `rankLoop` iteration, factored out for reasoning:
`some loc` when the event survives the skips (truthy location, truthy id,
day gap at most 7) and a distance lookup for `loc` is issued. -/
def guardPass (tgt e : CalendarEvent) : Option String :=
  match e.location with
  | none => none
  | some loc =>
    if loc = "" then none
    else if e.id = "" then none
    else if 7 < dayDiffQ tgt e then none
    else some loc

/-- The lookup calls one event contributes to the loop (one or none). -/
def callsOf (tgtLoc : String) (tgt e : CalendarEvent) : List (String × String) :=
  match guardPass tgt e with
  | none => []
  | some loc => [(tgtLoc, loc)]

/-- The entries one event contributes to the loop (one or none). -/
def entriesOf (api : String → String → DistApiResponse) (tgtLoc : String)
    (tgt e : CalendarEvent) : List JobEntry :=
  match guardPass tgt e with
  | none => []
  | some loc =>
    match getDrivingDistance (api tgtLoc loc) with
    | none => []
    | some d => if d ≤ 20 then [⟨e, d⟩] else []

/-- Sample target: a timed event at 2024-01-01 22:00 in UTC-05:00, which
is the instant 2024-01-02T03:00:00Z, so its UTC day and its local day
differ. -/
def evTarget : CalendarEvent :=
  { id := "t1"
    summary := some "Roof inspection - NEED TO BOOK"
    startMs := 1704164400000
    startTzOffsetMin := -300
    location := some "12 Main St" }

/-- Second sample target one hour after `evTarget` (2024-01-02T04:00:00Z),
on the same UTC calendar day. -/
def evTarget2 : CalendarEvent :=
  { id := "t9"
    summary := some "Fence repair NEED TO BOOK"
    startMs := 1704168000000
    startTzOffsetMin := -300
    location := some "99 King St" }

/-- Sample target with no location, at the same instant as `evTarget`. -/
def evNoLocTarget : CalendarEvent :=
  { id := "t2"
    summary := some "need to book gutter clean"
    startMs := 1704164400000
    startTzOffsetMin := 0
    location := none }

/-- Sample candidate at the same instant as the targets. -/
def evCand0 : CalendarEvent :=
  { id := "c0"
    summary := some "Install fence"
    startMs := 1704164400000
    startTzOffsetMin := -300
    location := some "34 Oak Ave" }

/-- Sample candidate exactly 3 days after `evTarget`. -/
def evCand3d : CalendarEvent :=
  { id := "c3"
    summary := some "Paint house"
    startMs := 1704423600000
    startTzOffsetMin := -300
    location := some "56 Pine Rd" }

/-- Sample candidate exactly 18 hours after the targets. -/
def evCand18h : CalendarEvent :=
  { id := "c18"
    summary := some "Tile roof"
    startMs := 1704229200000
    startTzOffsetMin := 0
    location := some "78 Elm St" }

/-- Sample candidate exactly 25 hours after the targets. -/
def evCand25h : CalendarEvent :=
  { id := "c25"
    summary := some "Clean windows"
    startMs := 1704254400000
    startTzOffsetMin := 0
    location := some "90 Cedar Ct" }

/-- Geodata environment with no API key configured. -/
def envNoKey : GeoEnv := { hasApiKey := false, geocode := fun _ => none }

/-- Geodata environment with an API key but a geocoder that finds
nothing. -/
def envKeyNoGeo : GeoEnv := { hasApiKey := true, geocode := fun _ => none }

/-- Distance service that answers every pair with a successful 5000 m
response. -/
def apiOk5km : String → String → DistApiResponse :=
  fun _ _ => .payload "OK" [[⟨"OK", 5000⟩]]

/-- Distance service whose every call fails at the network level. -/
def apiFail : String → String → DistApiResponse := fun _ _ => .netError

/-! Helper lemmas about the embedded operations. -/

theorem trimStr_empty : trimStr "" = "" := rfl

theorem eventFilterOk_iff (tgt e : CalendarEvent) :
    eventFilterOk tgt e = true ↔
      e.id ≠ tgt.id ∧ (∃ l, e.location = some l ∧ trimStr l ≠ "") ∧
        titleHasMarker e = false := by
  unfold eventFilterOk locationNonBlank
  cases hl : e.location with
  | none =>
    simp
  | some l =>
    simp only [Bool.and_eq_true, bne_iff_ne, ne_eq, Bool.not_eq_true']
    constructor
    · rintro ⟨⟨hid, _, htrim⟩, hmark⟩
      exact ⟨hid, ⟨l, rfl, by simpa using htrim⟩, hmark⟩
    · rintro ⟨hid, ⟨l', hl', htrim⟩, hmark⟩
      obtain rfl : l = l' := by simpa using hl'
      refine ⟨⟨hid, ?_, by simpa using htrim⟩, hmark⟩
      intro hempty
      subst hempty
      exact htrim trimStr_empty

theorem mem_performSimplifiedSearch (tgt : CalendarEvent) (pool : List CalendarEvent)
    (p : JobEntry) :
    p ∈ performSimplifiedSearch tgt pool ↔ p ∈ simplifiedEntries tgt pool :=
  (List.perm_insertionSort distLe _).mem_iff

theorem mem_simplifiedEntries (tgt : CalendarEvent) (pool : List CalendarEvent)
    (p : JobEntry) :
    p ∈ simplifiedEntries tgt pool ↔
      p.event ∈ pool ∧ eventFilterOk tgt p.event = true ∧ dayDiffQ tgt p.event ≤ 7 ∧
        p.distance = max (1/10 : ℚ) (dayDiffQ tgt p.event * 10) := by
  unfold simplifiedEntries
  rw [List.mem_filterMap]
  constructor
  · rintro ⟨e, he, hsome⟩
    rw [List.mem_filter] at he
    by_cases hdd : dayDiffQ tgt e ≤ 7
    · rw [if_pos hdd] at hsome
      obtain rfl := Option.some_injective _ hsome
      exact ⟨he.1, he.2, hdd, rfl⟩
    · rw [if_neg hdd] at hsome
      exact absurd hsome (by simp)
  · rintro ⟨hmem, hok, hdd, hdist⟩
    refine ⟨p.event, List.mem_filter.mpr ⟨hmem, hok⟩, ?_⟩
    rw [if_pos hdd]
    obtain ⟨pe, pd⟩ := p
    simp only at hdist
    simp [hdist]

theorem orderedInsert_filter_of_eq (q : ℚ) (x : JobEntry) (l : List JobEntry)
    (hx : x.distance = q) :
    (List.orderedInsert distLe x l).filter (fun a => a.distance = q) =
      x :: l.filter (fun a => a.distance = q) := by
  induction l with
  | nil => simp [List.orderedInsert, hx]
  | cons y ys ih =>
    by_cases h : distLe x y
    · simp [List.orderedInsert, h, hx]
    · have hy : ¬ (y.distance = q) := fun hq => h (by simp [distLe, hx, hq])
      simp [List.orderedInsert, h, hy, ih, List.filter_cons]

theorem orderedInsert_filter_of_ne (q : ℚ) (x : JobEntry) (l : List JobEntry)
    (hx : ¬ x.distance = q) :
    (List.orderedInsert distLe x l).filter (fun a => a.distance = q) =
      l.filter (fun a => a.distance = q) := by
  induction l with
  | nil => simp [List.orderedInsert, hx]
  | cons y ys ih =>
    by_cases h : distLe x y <;> simp [List.orderedInsert, h, hx, ih, List.filter_cons]

theorem insertionSort_filter_dist (q : ℚ) (l : List JobEntry) :
    (List.insertionSort distLe l).filter (fun a => a.distance = q) =
      l.filter (fun a => a.distance = q) := by
  induction l with
  | nil => rfl
  | cons x xs ih =>
    by_cases hx : x.distance = q
    · rw [List.insertionSort, orderedInsert_filter_of_eq q x _ hx, ih]
      simp [hx]
    · rw [List.insertionSort, orderedInsert_filter_of_ne q x _ hx, ih]
      simp [hx]

theorem rankLoop_eq (api : String → String → DistApiResponse) (tgt : CalendarEvent)
    (tgtLoc : String) (l : List CalendarEvent) :
    rankLoop api tgt tgtLoc l =
      (l.flatMap (callsOf tgtLoc tgt), l.flatMap (entriesOf api tgtLoc tgt)) := by
  induction l with
  | nil => rfl
  | cons e rest ih =>
    rw [List.flatMap_cons, List.flatMap_cons]
    unfold rankLoop
    rw [ih]
    cases hl : e.location with
    | none => simp [callsOf, entriesOf, guardPass, hl]
    | some loc =>
      by_cases h1 : loc = ""
      · simp [callsOf, entriesOf, guardPass, hl, h1]
      · by_cases h2 : e.id = ""
        · simp [callsOf, entriesOf, guardPass, hl, h1, h2]
        · by_cases h3 : 7 < dayDiffQ tgt e
          · simp [callsOf, entriesOf, guardPass, hl, h1, h2, h3]
          · cases hd : getDrivingDistance (api tgtLoc loc) with
            | none => simp [callsOf, entriesOf, guardPass, hl, h1, h2, h3, hd]
            | some d =>
              by_cases h4 : d ≤ 20 <;>
                simp [callsOf, entriesOf, guardPass, hl, h1, h2, h3, hd, h4]

theorem entriesOf_dist_le (api : String → String → DistApiResponse) (tgtLoc : String)
    (tgt e : CalendarEvent) (p : JobEntry) (hp : p ∈ entriesOf api tgtLoc tgt e) :
    p.distance ≤ 20 := by
  unfold entriesOf at hp
  cases hg : guardPass tgt e with
  | none => rw [hg] at hp; exact absurd hp (by simp)
  | some loc =>
    rw [hg] at hp
    dsimp only at hp
    cases hd : getDrivingDistance (api tgtLoc loc) with
    | none => rw [hd] at hp; exact absurd hp (by simp)
    | some d =>
      rw [hd] at hp
      dsimp only at hp
      by_cases h4 : d ≤ 20
      · rw [if_pos h4] at hp
        obtain rfl : p = ⟨e, d⟩ := by simpa using hp
        exact h4
      · rw [if_neg h4] at hp
        exact absurd hp (by simp)

theorem entriesOf_of_lookup_failed (api : String → String → DistApiResponse)
    (tgtLoc : String) (tgt e : CalendarEvent) (loc : String)
    (hloc : e.location = some loc)
    (hfail : getDrivingDistance (api tgtLoc loc) = none) :
    entriesOf api tgtLoc tgt e = [] := by
  unfold entriesOf guardPass
  rw [hloc]
  by_cases h1 : loc = ""
  · simp [h1]
  · by_cases h2 : e.id = ""
    · simp [h1, h2]
    · by_cases h3 : 7 < dayDiffQ tgt e
      · simp [h1, h2, h3]
      · simp [h1, h2, h3, hfail]

theorem callsOf_length_le (tgtLoc : String) (tgt e : CalendarEvent) :
    (callsOf tgtLoc tgt e).length ≤ 1 := by
  unfold callsOf
  cases guardPass tgt e <;> simp

theorem flatMap_callsOf_length_le (tgtLoc : String) (tgt : CalendarEvent)
    (l : List CalendarEvent) :
    (l.flatMap (callsOf tgtLoc tgt)).length ≤ l.length := by
  induction l with
  | nil => simp
  | cons e rest ih =>
    rw [List.flatMap_cons, List.length_append, List.length_cons]
    have := callsOf_length_le tgtLoc tgt e
    omega

theorem mem_setKey_self (m : List (String × DayOpportunity)) (k : String)
    (v : DayOpportunity) : (k, v) ∈ setKey m k v := by
  unfold setKey
  by_cases hany : m.any fun p => p.1 = k
  · rw [if_pos hany]
    obtain ⟨p, hp, hpk⟩ := List.any_eq_true.mp hany
    have hpk' : p.1 = k := by simpa using hpk
    refine List.mem_map.mpr ⟨p, hp, ?_⟩
    rw [if_pos hpk']
  · rw [if_neg hany]
    exact List.mem_append_right _ (by simp)

theorem eq_of_mem_setKey (m : List (String × DayOpportunity)) (k : String)
    (v v' : DayOpportunity) (h : (k, v') ∈ setKey m k v) : v' = v := by
  unfold setKey at h
  by_cases hany : m.any fun p => p.1 = k
  · rw [if_pos hany] at h
    obtain ⟨p, hp, hpe⟩ := List.mem_map.mp h
    by_cases hpk : p.1 = k
    · rw [if_pos hpk] at hpe
      injection hpe with h1 h2
      exact h2.symm
    · rw [if_neg hpk] at hpe
      exact absurd (congrArg Prod.fst hpe) hpk
  · rw [if_neg hany] at h
    rcases List.mem_append.mp h with hm | hv
    · exact absurd (List.any_eq_true.mpr ⟨(k, v'), hm, by simp⟩) hany
    · simpa using hv

theorem mem_setKey_cases (m : List (String × DayOpportunity)) (k : String)
    (v : DayOpportunity) (kv : String × DayOpportunity) (h : kv ∈ setKey m k v) :
    kv ∈ m ∨ kv = (k, v) := by
  unfold setKey at h
  by_cases hany : m.any fun p => p.1 = k
  · rw [if_pos hany] at h
    obtain ⟨p, hp, hpe⟩ := List.mem_map.mp h
    by_cases hpk : p.1 = k
    · rw [if_pos hpk] at hpe
      exact Or.inr hpe.symm
    · rw [if_neg hpk] at hpe
      exact Or.inl (hpe ▸ hp)
  · rw [if_neg hany] at h
    rcases List.mem_append.mp h with hm | hv
    · exact Or.inl hm
    · exact Or.inr (by simpa using hv)

theorem setKey_pairwise (m : List (String × DayOpportunity)) (k : String)
    (v : DayOpportunity) (h : m.Pairwise fun p q => p.1 ≠ q.1) :
    (setKey m k v).Pairwise fun p q => p.1 ≠ q.1 := by
  unfold setKey
  by_cases hany : m.any fun p => p.1 = k
  · rw [if_pos hany]
    refine List.Pairwise.map _ ?_ h
    intro p q hpq
    by_cases hpk : p.1 = k
    · by_cases hqk : q.1 = k
      · exact absurd (hpk.trans hqk.symm) hpq
      · simp only [if_pos hpk, if_neg hqk]
        exact fun hk => hqk hk.symm
    · by_cases hqk : q.1 = k
      · simp only [if_neg hpk, if_pos hqk]
        exact hpk
      · simp only [if_neg hpk, if_neg hqk]
        exact hpq
  · rw [if_neg hany]
    rw [List.pairwise_append]
    refine ⟨h, by simp, ?_⟩
    intro p hp q hq
    have hq' : q = (k, v) := by simpa using hq
    subst hq'
    intro hpk
    exact absurd (List.any_eq_true.mpr ⟨p, hp, by simp [hpk]⟩) hany

theorem processStep_pairwise (api : String → String → DistApiResponse)
    (pool : List CalendarEvent) (m : List (String × DayOpportunity)) (t : CalendarEvent)
    (h : m.Pairwise fun p q => p.1 ≠ q.1) :
    (processStep api pool m t).Pairwise fun p q => p.1 ≠ q.1 := by
  unfold processStep
  cases t.location with
  | none => exact h
  | some loc =>
    dsimp only
    by_cases h1 : loc = ""
    · simpa [h1] using h
    · rw [if_neg h1]
      by_cases h2 : (rankNearby api t loc pool).isEmpty
      · simpa [h2] using h
      · simpa [h2] using setKey_pairwise _ _ _ h

theorem foldl_processStep_pairwise (api : String → String → DistApiResponse)
    (pool : List CalendarEvent) (ts : List CalendarEvent)
    (m : List (String × DayOpportunity)) (h : m.Pairwise fun p q => p.1 ≠ q.1) :
    (ts.foldl (processStep api pool) m).Pairwise fun p q => p.1 ≠ q.1 := by
  induction ts generalizing m with
  | nil => exact h
  | cons t ts ih => exact ih _ (processStep_pairwise api pool m t h)

theorem processTargets_pairwise (api : String → String → DistApiResponse)
    (pool : List CalendarEvent) (ts : List CalendarEvent) :
    (processTargets api pool ts).Pairwise fun p q => p.1 ≠ q.1 :=
  foldl_processStep_pairwise api pool ts [] (by simp)

theorem countP_eq_one_of_pairwise (m : List (String × DayOpportunity))
    (h : m.Pairwise fun p q => p.1 ≠ q.1) (k : String) (v : DayOpportunity)
    (hm : (k, v) ∈ m) : m.countP (fun p => p.1 = k) = 1 := by
  induction m with
  | nil => exact absurd hm (by simp)
  | cons p ms ih =>
    rw [List.pairwise_cons] at h
    rw [List.countP_cons]
    rcases List.mem_cons.mp hm with hp | hms
    · have hpk : p.1 = k := by rw [← hp]
      have hzero : ms.countP (fun p => p.1 = k) = 0 := by
        rw [List.countP_eq_zero]
        intro q hq
        have := h.1 q hq
        simp only [hpk] at this
        simp [Ne.symm this]
      simp [hzero, hpk]
    · have hpk : ¬ (p.1 = k) := by
        intro hpk
        exact absurd (hpk.trans rfl) (by simpa [hpk] using h.1 (k, v) hms)
      rw [ih h.2 hms]
      simp [hpk]

theorem mem_processStep (api : String → String → DistApiResponse)
    (pool : List CalendarEvent) (m : List (String × DayOpportunity)) (t : CalendarEvent)
    (kv : String × DayOpportunity) (h : kv ∈ processStep api pool m t) :
    kv ∈ m ∨ ∃ loc, t.location = some loc ∧ loc ≠ "" ∧
      rankNearby api t loc pool ≠ [] ∧
      kv = (toISODate t.startMs, ⟨t, rankNearby api t loc pool⟩) := by
  unfold processStep at h
  cases hl : t.location with
  | none => rw [hl] at h; exact Or.inl h
  | some loc =>
    rw [hl] at h
    dsimp only at h
    by_cases h1 : loc = ""
    · rw [if_pos h1] at h; exact Or.inl h
    · rw [if_neg h1] at h
      by_cases h2 : (rankNearby api t loc pool).isEmpty
      · rw [if_pos h2] at h; exact Or.inl h
      · rw [if_neg h2] at h
        rcases mem_setKey_cases _ _ _ _ h with hm | hkv
        · exact Or.inl hm
        · refine Or.inr ⟨loc, rfl, h1, ?_, hkv⟩
          intro hnil
          exact h2 (by simp [hnil])

theorem mem_foldl_processStep (api : String → String → DistApiResponse)
    (pool : List CalendarEvent) (ts : List CalendarEvent)
    (m : List (String × DayOpportunity)) (kv : String × DayOpportunity)
    (h : kv ∈ ts.foldl (processStep api pool) m) :
    kv ∈ m ∨ ∃ t ∈ ts, ∃ loc, t.location = some loc ∧ loc ≠ "" ∧
      rankNearby api t loc pool ≠ [] ∧
      kv = (toISODate t.startMs, ⟨t, rankNearby api t loc pool⟩) := by
  induction ts generalizing m with
  | nil => exact Or.inl h
  | cons t ts ih =>
    rcases ih _ h with hstep | ⟨t', ht', rest⟩
    · rcases mem_processStep api pool m t kv hstep with hm | ⟨loc, rest⟩
      · exact Or.inl hm
      · exact Or.inr ⟨t, by simp, loc, rest⟩
    · exact Or.inr ⟨t', List.mem_cons_of_mem _ ht', rest⟩

theorem mem_processTargets (api : String → String → DistApiResponse)
    (pool : List CalendarEvent) (ts : List CalendarEvent) (kv : String × DayOpportunity)
    (h : kv ∈ processTargets api pool ts) :
    ∃ t ∈ ts, ∃ loc, t.location = some loc ∧ loc ≠ "" ∧
      rankNearby api t loc pool ≠ [] ∧
      kv = (toISODate t.startMs, ⟨t, rankNearby api t loc pool⟩) := by
  rcases mem_foldl_processStep api pool ts [] kv h with hnil | hfound
  · exact absurd hnil (by simp)
  · exact hfound

theorem geocodeSearch_drop_of_geocode_failed (env : GeoEnv) (tgt : CalendarEvent)
    (c0 : ℝ × ℝ) (l₁ l₂ : List CalendarEvent) (e : CalendarEvent) (loc : String)
    (hloc : e.location = some loc) (hgeo : env.geocode loc = none) :
    geocodeSearch env tgt c0 (l₁ ++ e :: l₂) = geocodeSearch env tgt c0 (l₁ ++ l₂) := by
  unfold geocodeSearch
  dsimp only
  congr 1
  by_cases hf : eventFilterOk tgt e = true <;>
    simp [List.filter_append, List.filter_cons, List.filterMap_append,
      List.filterMap_cons, hf, hloc, hgeo]

/-! Claim theorems. -/

/-- C1 (counterexample): the simplified time-proximity fallback keeps a
candidate whose day gap from the target is 3 — outside the ±2-day window
the claim asserts — so the fallback's keep-window is not ±2 days. -/
theorem claim_C1_counterexample :
    (⟨evCand3d, 30⟩ : JobEntry) ∈ performSimplifiedSearch evTarget [evCand3d] ∧
    dayDiffQ evTarget evCand3d = 3 ∧ ¬ (dayDiffQ evTarget evCand3d ≤ 2) := by
  have hf : eventFilterOk evTarget evCand3d = true := by with_unfolding_all decide
  have hd : dayDiffQ evTarget evCand3d = 3 := by with_unfolding_all decide
  refine ⟨?_, hd, by rw [hd]; norm_num⟩
  have hlist : performSimplifiedSearch evTarget [evCand3d] = [⟨evCand3d, 30⟩] := by
    simp [performSimplifiedSearch, simplifiedEntries, hf, hd, List.insertionSort,
      List.orderedInsert, List.filterMap_cons]
    norm_num
  rw [hlist]
  simp

/-- C1 (amended): under the time-proximity fallback a candidate is kept
iff it passes the candidate filter and its day gap is within the same
±7-day window as the general search (not a tightened ±2-day window), and
every kept candidate carries the synthetic distance
`max 0.1 (gap_days * 10)`; in particular a candidate exactly 3 days from
the target is kept with synthetic distance `3 * 10`. -/
theorem claim_C1_fallback_characterization :
    (∀ (tgt : CalendarEvent) (pool : List CalendarEvent) (p : JobEntry),
      p ∈ performSimplifiedSearch tgt pool ↔
        p.event ∈ pool ∧ eventFilterOk tgt p.event = true ∧ dayDiffQ tgt p.event ≤ 7 ∧
          p.distance = max (1/10 : ℚ) (dayDiffQ tgt p.event * 10)) ∧
    (∀ (tgt : CalendarEvent) (pool : List CalendarEvent) (e : CalendarEvent),
      e ∈ pool → eventFilterOk tgt e = true → dayDiffQ tgt e = 3 →
        (⟨e, 3 * 10⟩ : JobEntry) ∈ performSimplifiedSearch tgt pool) := by
  constructor
  · intro tgt pool p
    rw [mem_performSimplifiedSearch, mem_simplifiedEntries]
  · intro tgt pool e hmem hok h3
    rw [mem_performSimplifiedSearch, mem_simplifiedEntries]
    refine ⟨hmem, hok, by rw [h3]; norm_num, ?_⟩
    dsimp only
    rw [h3]
    norm_num

/-- Witness for C1: a pool with one candidate 3 days out, on which the
amended characterization applies with every hypothesis discharged. -/
theorem claim_C1_witness :
    evCand3d ∈ [evCand3d] ∧ eventFilterOk evTarget evCand3d = true ∧
    dayDiffQ evTarget evCand3d = 3 ∧
    (⟨evCand3d, 3 * 10⟩ : JobEntry) ∈ performSimplifiedSearch evTarget [evCand3d] :=
  ⟨by simp, by with_unfolding_all decide, by with_unfolding_all decide,
    claim_C1_fallback_characterization.2 evTarget [evCand3d] evCand3d (by simp)
      (by with_unfolding_all decide) (by with_unfolding_all decide)⟩

/-- C2: an event is returned by the candidate search iff it is in the
pool, its id differs from the target's, its location is present and
non-blank after trimming, its title does not contain the needs-booking
marker, and its unrounded day gap from the target is at most the 7-day
window; moreover, by the same millisecond-delta-over-24h arithmetic, an
18-hour gap is within a 1-day window while a 25-hour gap is not. -/
theorem claim_C2_findCandidates_characterization :
    (∀ (tgt : CalendarEvent) (pool : List CalendarEvent) (e : CalendarEvent),
      e ∈ findCandidates tgt pool ↔
        e ∈ pool ∧ e.id ≠ tgt.id ∧ (∃ l, e.location = some l ∧ trimStr l ≠ "") ∧
          titleHasMarker e = false ∧ dayDiffQ tgt e ≤ 7) ∧
    (∀ t e : CalendarEvent, e.startMs - t.startMs = 64800000 → dayDiffQ t e ≤ 1) ∧
    (∀ t e : CalendarEvent, e.startMs - t.startMs = 90000000 → ¬ (dayDiffQ t e ≤ 1)) := by
  refine ⟨?_, ?_, ?_⟩
  · intro tgt pool e
    unfold findCandidates
    rw [List.mem_filter, List.mem_filter]
    constructor
    · rintro ⟨⟨hmem, hok⟩, hdd⟩
      obtain ⟨hid, hlocex, hmark⟩ := (eventFilterOk_iff tgt e).mp hok
      exact ⟨hmem, hid, hlocex, hmark, by simpa using hdd⟩
    · rintro ⟨hmem, hid, hlocex, hmark, hdd⟩
      exact ⟨⟨hmem, (eventFilterOk_iff tgt e).mpr ⟨hid, hlocex, hmark⟩⟩, by simpa using hdd⟩
  · intro t e h
    have hc : ((e.startMs : ℚ) - (t.startMs : ℚ)) = 64800000 := by
      have hcast := congrArg (fun z : ℤ => (z : ℚ)) h
      push_cast at hcast
      linarith
    unfold dayDiffQ jsAbs
    rw [hc, if_neg (by norm_num)]
    norm_num
  · intro t e h
    have hc : ((e.startMs : ℚ) - (t.startMs : ℚ)) = 90000000 := by
      have hcast := congrArg (fun z : ℤ => (z : ℚ)) h
      push_cast at hcast
      linarith
    unfold dayDiffQ jsAbs
    rw [hc, if_neg (by norm_num)]
    norm_num

/-- Witness for C2: concrete events 18 and 25 hours from the target,
with the day-gap hypotheses discharged by computation. -/
theorem claim_C2_witness :
    (evCand18h.startMs - evTarget.startMs = 64800000 ∧ dayDiffQ evTarget evCand18h ≤ 1) ∧
    (evCand25h.startMs - evTarget.startMs = 90000000 ∧ ¬ (dayDiffQ evTarget evCand25h ≤ 1)) :=
  ⟨⟨by decide, claim_C2_findCandidates_characterization.2.1 evTarget evCand18h (by decide)⟩,
   ⟨by decide, claim_C2_findCandidates_characterization.2.2 evTarget evCand25h (by decide)⟩⟩

/-- C3: whenever the search endpoint falls back to the time-proximity
estimate (no API key, or the target's location fails to geocode), the
returned result carries a warning and the fallback estimate — the
degradation is part of a normal result, not a thrown failure. -/
theorem claim_C3_fallback_always_warns :
    ∀ (env : GeoEnv) (tgt : CalendarEvent) (pool : List CalendarEvent),
      usedFallback env tgt = true →
        (postSearch env tgt pool).warning.isSome = true ∧
        (postSearch env tgt pool).nearbyJobs =
          (performSimplifiedSearch tgt pool).map simplifiedEntryR := by
  intro env tgt pool h
  unfold usedFallback at h
  cases hk : env.hasApiKey with
  | false => simp [postSearch, hk]
  | true =>
    rw [hk] at h
    simp only [Bool.not_true, Bool.false_or] at h
    cases hl : tgt.location with
    | none => rw [hl] at h; simp at h
    | some loc =>
      rw [hl] at h
      dsimp only at h
      by_cases h1 : loc = ""
      · rw [if_pos h1] at h; simp at h
      · rw [if_neg h1] at h
        have hgeo : env.geocode loc = none := Option.isNone_iff_eq_none.mp h
        simp [postSearch, hk, hl, h1, hgeo]

/-- Witness for C3: no API key configured, so the fallback is used and
the warning is present. -/
theorem claim_C3_witness :
    usedFallback envNoKey evTarget = true ∧
    (postSearch envNoKey evTarget []).warning.isSome = true :=
  ⟨rfl, (claim_C3_fallback_always_warns envNoKey evTarget [] rfl).1⟩

/-- C4 (counterexample): with no API key configured, the endpoint runs
the simplified time-based fallback before ever looking at the target's
location, so a target with no location still yields a non-empty
candidate list — the claimed empty-list-on-every-path behaviour fails on
the fallback path. -/
theorem claim_C4_counterexample :
    evNoLocTarget.location = none ∧
    (postSearch envNoKey evNoLocTarget [evCand0]).nearbyJobs.length = 1 := by
  refine ⟨rfl, ?_⟩
  have hf : eventFilterOk evNoLocTarget evCand0 = true := by with_unfolding_all decide
  have hd : dayDiffQ evNoLocTarget evCand0 = 0 := by with_unfolding_all decide
  simp [postSearch, envNoKey, performSimplifiedSearch, simplifiedEntries, hf, hd,
    List.insertionSort, List.orderedInsert, List.filterMap_cons]

/-- C4 (amended): when an API key is configured, a target with an empty
or absent location gets an empty candidate list immediately and no
warning (a normal no-location result, not an error), and the
multi-calendar route skips such targets entirely; but when no API key is
configured the simplified fallback runs regardless of the target's
location. -/
theorem claim_C4_no_location_empty :
    (∀ (env : GeoEnv) (tgt : CalendarEvent) (pool : List CalendarEvent),
      env.hasApiKey = true → (tgt.location = none ∨ tgt.location = some "") →
        (postSearch env tgt pool).nearbyJobs = [] ∧
        (postSearch env tgt pool).warning = none) ∧
    (∀ (api : String → String → DistApiResponse) (pool : List CalendarEvent)
      (l₁ l₂ : List CalendarEvent) (t : CalendarEvent),
      (t.location = none ∨ t.location = some "") →
        processTargets api pool (l₁ ++ t :: l₂) = processTargets api pool (l₁ ++ l₂)) := by
  constructor
  · intro env tgt pool hk hloc
    rcases hloc with h | h <;> simp [postSearch, hk, h]
  · intro api pool l₁ l₂ t hloc
    unfold processTargets
    rw [List.foldl_append, List.foldl_cons, List.foldl_append]
    have hstep : processStep api pool (List.foldl (processStep api pool) [] l₁) t =
        List.foldl (processStep api pool) [] l₁ := by
      rcases hloc with h | h <;> simp [processStep, h]
    rw [hstep]

/-- Witness for C4: an API key with a failing geocoder and a target
without a location, on which the amended theorem applies. -/
theorem claim_C4_witness :
    envKeyNoGeo.hasApiKey = true ∧ evNoLocTarget.location = none ∧
    (postSearch envKeyNoGeo evNoLocTarget [evCand0]).nearbyJobs = [] :=
  ⟨rfl, rfl,
    (claim_C4_no_location_empty.1 envKeyNoGeo evNoLocTarget [evCand0] rfl (Or.inl rfl)).1⟩

/-- C5: when two distinct targets that both produce nearby jobs share
the same day key, the final mapping holds exactly one entry for that
key — the one written by the target processed last — and the earlier
target's entry is silently gone. -/
theorem claim_C5_same_dayKey_last_writer_wins
    (api : String → String → DistApiResponse) (pool : List CalendarEvent)
    (l₁ l₂ : List CalendarEvent) (t1 t2 : CalendarEvent) (loc1 loc2 : String)
    (h1 : t1.location = some loc1) (h1e : loc1 ≠ "")
    (h2 : t2.location = some loc2) (h2e : loc2 ≠ "")
    (hne : t1 ≠ t2)
    (hr1 : rankNearby api t1 loc1 pool ≠ [])
    (hr2 : rankNearby api t2 loc2 pool ≠ [])
    (hk : toISODate t1.startMs = toISODate t2.startMs) :
    (processTargets api pool (l₁ ++ t1 :: l₂ ++ [t2])).countP
        (fun p => p.1 = toISODate t2.startMs) = 1 ∧
    (toISODate t2.startMs, (⟨t2, rankNearby api t2 loc2 pool⟩ : DayOpportunity)) ∈
      processTargets api pool (l₁ ++ t1 :: l₂ ++ [t2]) ∧
    ∀ jobs1, (toISODate t2.startMs, (⟨t1, jobs1⟩ : DayOpportunity)) ∉
      processTargets api pool (l₁ ++ t1 :: l₂ ++ [t2]) := by
  have hsplit : l₁ ++ t1 :: l₂ ++ [t2] = (l₁ ++ t1 :: l₂) ++ [t2] := by simp
  have hstep : processTargets api pool (l₁ ++ t1 :: l₂ ++ [t2]) =
      setKey (processTargets api pool (l₁ ++ t1 :: l₂)) (toISODate t2.startMs)
        ⟨t2, rankNearby api t2 loc2 pool⟩ := by
    rw [hsplit]
    unfold processTargets
    rw [List.foldl_append, List.foldl_cons, List.foldl_nil]
    simp [processStep, h2, h2e, List.isEmpty_iff, hr2]
  have hpw : (setKey (processTargets api pool (l₁ ++ t1 :: l₂)) (toISODate t2.startMs)
      (⟨t2, rankNearby api t2 loc2 pool⟩ : DayOpportunity)).Pairwise
        fun p q => p.1 ≠ q.1 :=
    setKey_pairwise _ _ _ (processTargets_pairwise api pool _)
  have hmem : (toISODate t2.startMs, (⟨t2, rankNearby api t2 loc2 pool⟩ : DayOpportunity)) ∈
      setKey (processTargets api pool (l₁ ++ t1 :: l₂)) (toISODate t2.startMs)
        ⟨t2, rankNearby api t2 loc2 pool⟩ :=
    mem_setKey_self _ _ _
  refine ⟨?_, ?_, ?_⟩
  · rw [hstep]
    exact countP_eq_one_of_pairwise _ hpw _ _ hmem
  · rw [hstep]
    exact hmem
  · intro jobs1 hin
    rw [hstep] at hin
    have := eq_of_mem_setKey _ _ _ _ hin
    injection this with hteq _
    exact hne hteq

/-- C6 (counterexample): the emitted day key is the UTC calendar day of
the target's start instant (via `toISOString`), which differs from the
target's local calendar day for a target at 22:00 local time in
UTC-05:00 — so the key is not derived in the target's local day. -/
theorem claim_C6_counterexample :
    processTargets apiOk5km [evCand0] [evTarget] =
      [("2024-01-02", ⟨evTarget, [⟨evCand0, 5⟩]⟩)] ∧
    specLocalDayKey evTarget = "2024-01-01" ∧
    ("2024-01-02" : String) ≠ "2024-01-01" := by
  refine ⟨?_, by with_unfolding_all decide, by decide⟩
  have hd : dayDiffQ evTarget evCand0 = 0 := by with_unfolding_all decide
  have hl : evCand0.location = some "34 Oak Ave" := rfl
  have hi : evCand0.id = "c0" := rfl
  have htl : evTarget.location = some "12 Main St" := rfl
  have hkey : toISODate evTarget.startMs = "2024-01-02" := by with_unfolding_all decide
  simp [processTargets, processStep, htl, hkey, setKey,
    rankNearby, rankLoop, apiOk5km, getDrivingDistance, hd, hl, hi,
    List.insertionSort, List.orderedInsert]
  norm_num

/-- C6 (amended): every key of the emitted mapping is the ISO
`YYYY-MM-DD` rendering of the UTC calendar day of its own target's start
instant — derived from the target's start, never from a candidate's —
though not of the target's local calendar day. -/
theorem claim_C6_dayKey_from_target_start :
    ∀ (api : String → String → DistApiResponse) (pool ts : List CalendarEvent)
      (kv : String × DayOpportunity), kv ∈ processTargets api pool ts →
        kv.1 = toISODate kv.2.needToBookEvent.startMs ∧ kv.2.needToBookEvent ∈ ts := by
  intro api pool ts kv h
  obtain ⟨t, ht, loc, _, _, _, hkv⟩ := mem_processTargets api pool ts kv h
  subst hkv
  exact ⟨rfl, ht⟩

/-- Witness for C6: the singleton run from the counterexample setup,
with the membership hypothesis discharged concretely. -/
theorem claim_C6_witness :
    ("2024-01-02", (⟨evTarget, [⟨evCand0, 5⟩]⟩ : DayOpportunity)) ∈
      processTargets apiOk5km [evCand0] [evTarget] ∧
    ("2024-01-02" : String) = toISODate evTarget.startMs := by
  have hd : dayDiffQ evTarget evCand0 = 0 := by with_unfolding_all decide
  have hl : evCand0.location = some "34 Oak Ave" := rfl
  have hi : evCand0.id = "c0" := rfl
  have htl : evTarget.location = some "12 Main St" := rfl
  have hkey : toISODate evTarget.startMs = "2024-01-02" := by with_unfolding_all decide
  have hmem : ("2024-01-02", (⟨evTarget, [⟨evCand0, 5⟩]⟩ : DayOpportunity)) ∈
      processTargets apiOk5km [evCand0] [evTarget] := by
    simp [processTargets, processStep, htl, hkey, setKey,
      rankNearby, rankLoop, apiOk5km, getDrivingDistance, hd, hl, hi,
      List.insertionSort, List.orderedInsert]
    norm_num
  exact ⟨hmem,
    (claim_C6_dayKey_from_target_start apiOk5km [evCand0] [evTarget] _ hmem).1⟩

/-- Witness for C5: two distinct targets an hour apart on the same UTC
day, both with a surviving candidate; the theorem applies with all
hypotheses discharged and the final mapping holds the later target's
entry. -/
theorem claim_C5_witness :
    evTarget ≠ evTarget2 ∧
    rankNearby apiOk5km evTarget "12 Main St" [evCand0] ≠ [] ∧
    rankNearby apiOk5km evTarget2 "99 King St" [evCand0] ≠ [] ∧
    toISODate evTarget.startMs = toISODate evTarget2.startMs ∧
    (toISODate evTarget2.startMs,
      (⟨evTarget2, rankNearby apiOk5km evTarget2 "99 King St" [evCand0]⟩ : DayOpportunity)) ∈
        processTargets apiOk5km [evCand0] ([] ++ evTarget :: [] ++ [evTarget2]) := by
  have hd1 : dayDiffQ evTarget evCand0 = 0 := by with_unfolding_all decide
  have hd2 : dayDiffQ evTarget2 evCand0 = 1/24 := by with_unfolding_all decide
  have hl : evCand0.location = some "34 Oak Ave" := rfl
  have hi : evCand0.id = "c0" := rfl
  have hr1 : rankNearby apiOk5km evTarget "12 Main St" [evCand0] = [⟨evCand0, 5⟩] := by
    simp [rankNearby, rankLoop, apiOk5km, getDrivingDistance, hd1, hl, hi,
      List.insertionSort, List.orderedInsert]
    norm_num
  have hr2 : rankNearby apiOk5km evTarget2 "99 King St" [evCand0] = [⟨evCand0, 5⟩] := by
    simp [rankNearby, rankLoop, apiOk5km, getDrivingDistance, hd2, hl, hi,
      List.insertionSort, List.orderedInsert]
    norm_num
  have hne : evTarget ≠ evTarget2 := by decide
  have hkeq : toISODate evTarget.startMs = toISODate evTarget2.startMs := by
    with_unfolding_all decide
  refine ⟨hne, by simp [hr1], by simp [hr2], hkeq, ?_⟩
  exact (claim_C5_same_dayKey_last_writer_wins apiOk5km [evCand0] [] [] evTarget evTarget2
    "12 Main St" "99 King St" rfl (by decide) rfl (by decide) hne
    (by simp [hr1]) (by simp [hr2]) hkeq).2.1

/-- C7: in every ranked result, each surviving candidate's distance is
within the 20 km threshold, each day's list is sorted ascending by
distance with distance-ties kept in discovery order (the sort is
stable: filtering the sorted list to any fixed distance returns those
entries exactly in the discovery order of the loop), and only days with
at least one surviving candidate appear in the final mapping. -/
theorem claim_C7_threshold_sorted_stable
    (api : String → String → DistApiResponse) (tgt : CalendarEvent) (tgtLoc : String)
    (pool ts : List CalendarEvent) :
    (∀ p ∈ rankNearby api tgt tgtLoc pool, p.distance ≤ 20) ∧
    (rankNearby api tgt tgtLoc pool).Sorted distLe ∧
    (∀ q : ℚ, (rankNearby api tgt tgtLoc pool).filter (fun p => p.distance = q) =
      ((rankLoop api tgt tgtLoc pool).2).filter (fun p => p.distance = q)) ∧
    (∀ kv ∈ processTargets api pool ts, kv.2.nearbyJobs ≠ []) := by
  refine ⟨?_, List.sorted_insertionSort distLe _, ?_, ?_⟩
  · intro p hp
    unfold rankNearby at hp
    have hp' := (List.perm_insertionSort distLe _).mem_iff.mp hp
    rw [rankLoop_eq] at hp'
    dsimp only at hp'
    obtain ⟨e, _, hpe⟩ := List.mem_flatMap.mp hp'
    exact entriesOf_dist_le api tgtLoc tgt e p hpe
  · intro q
    unfold rankNearby
    rw [insertionSort_filter_dist]
  · intro kv hkv
    obtain ⟨t, _, loc, _, _, hne, hkv'⟩ := mem_processTargets api pool ts kv hkv
    subst hkv'
    simpa using hne

/-- Witness for C7: a concrete ranked run with one surviving candidate;
the theorem's conclusions instantiated at that member. -/
theorem claim_C7_witness :
    (⟨evCand0, 5⟩ : JobEntry) ∈ rankNearby apiOk5km evTarget "12 Main St" [evCand0] ∧
    (⟨evCand0, 5⟩ : JobEntry).distance ≤ 20 ∧
    ("2024-01-02", (⟨evTarget, [⟨evCand0, 5⟩]⟩ : DayOpportunity)) ∈
      processTargets apiOk5km [evCand0] [evTarget] ∧
    (("2024-01-02", (⟨evTarget, [⟨evCand0, 5⟩]⟩ : DayOpportunity)) :
      String × DayOpportunity).2.nearbyJobs ≠ [] := by
  have hd : dayDiffQ evTarget evCand0 = 0 := by with_unfolding_all decide
  have hl : evCand0.location = some "34 Oak Ave" := rfl
  have hi : evCand0.id = "c0" := rfl
  have htl : evTarget.location = some "12 Main St" := rfl
  have hkey : toISODate evTarget.startMs = "2024-01-02" := by with_unfolding_all decide
  have hr : rankNearby apiOk5km evTarget "12 Main St" [evCand0] = [⟨evCand0, 5⟩] := by
    simp [rankNearby, rankLoop, apiOk5km, getDrivingDistance, hd, hl, hi,
      List.insertionSort, List.orderedInsert]
    norm_num
  have hmem1 : (⟨evCand0, 5⟩ : JobEntry) ∈
      rankNearby apiOk5km evTarget "12 Main St" [evCand0] := by
    rw [hr]; simp
  have hmem2 : ("2024-01-02", (⟨evTarget, [⟨evCand0, 5⟩]⟩ : DayOpportunity)) ∈
      processTargets apiOk5km [evCand0] [evTarget] := by
    simp [processTargets, processStep, htl, hkey, setKey,
      rankNearby, rankLoop, apiOk5km, getDrivingDistance, hd, hl, hi,
      List.insertionSort, List.orderedInsert]
    norm_num
  refine ⟨hmem1, ?_, hmem2, ?_⟩
  · exact (claim_C7_threshold_sorted_stable apiOk5km evTarget "12 Main St" [evCand0]
      [evTarget]).1 _ hmem1
  · exact (claim_C7_threshold_sorted_stable apiOk5km evTarget "12 Main St" [evCand0]
      [evTarget]).2.2.2 _ hmem2

/-- C8: a failed, timed-out, or non-success distance lookup for one
candidate removes exactly that candidate from the driving-distance
ranking — the result over the rest of the pool is unchanged, the batch
is never aborted, and the loop issues at most one lookup per pool event
(no retries) — and likewise a failed per-candidate geocode on the
geocode + great-circle strategy removes exactly that candidate. -/
theorem claim_C8_lookup_failure_drops_only_that_candidate :
    (∀ (api : String → String → DistApiResponse) (tgt : CalendarEvent) (tgtLoc : String)
      (l₁ l₂ : List CalendarEvent) (e : CalendarEvent) (loc : String),
      e.location = some loc → getDrivingDistance (api tgtLoc loc) = none →
        rankNearby api tgt tgtLoc (l₁ ++ e :: l₂) = rankNearby api tgt tgtLoc (l₁ ++ l₂) ∧
        (rankLoop api tgt tgtLoc (l₁ ++ e :: l₂)).1.length ≤ (l₁ ++ e :: l₂).length) ∧
    (∀ (env : GeoEnv) (tgt : CalendarEvent) (c0 : ℝ × ℝ)
      (l₁ l₂ : List CalendarEvent) (e : CalendarEvent) (loc : String),
      e.location = some loc → env.geocode loc = none →
        geocodeSearch env tgt c0 (l₁ ++ e :: l₂) = geocodeSearch env tgt c0 (l₁ ++ l₂)) := by
  constructor
  · intro api tgt tgtLoc l₁ l₂ e loc hloc hfail
    constructor
    · unfold rankNearby
      rw [rankLoop_eq, rankLoop_eq]
      dsimp only
      rw [List.flatMap_append, List.flatMap_append, List.flatMap_cons,
        entriesOf_of_lookup_failed api tgtLoc tgt e loc hloc hfail]
      simp
    · rw [rankLoop_eq]
      dsimp only
      exact flatMap_callsOf_length_le tgtLoc tgt _
  · intro env tgt c0 l₁ l₂ e loc hloc hgeo
    exact geocodeSearch_drop_of_geocode_failed env tgt c0 l₁ l₂ e loc hloc hgeo

/-- Witness for C8: a network-failing distance service and a geocoder
that finds nothing; in both strategies the singleton pool ranks
identically to the empty pool. -/
theorem claim_C8_witness :
    (evCand0.location = some "34 Oak Ave" ∧
     getDrivingDistance (apiFail "12 Main St" "34 Oak Ave") = none ∧
     rankNearby apiFail evTarget "12 Main St" ([] ++ evCand0 :: []) =
       rankNearby apiFail evTarget "12 Main St" ([] ++ [])) ∧
    (envKeyNoGeo.geocode "34 Oak Ave" = none ∧
     geocodeSearch envKeyNoGeo evTarget ((0 : ℝ), (0 : ℝ)) ([] ++ evCand0 :: []) =
       geocodeSearch envKeyNoGeo evTarget ((0 : ℝ), (0 : ℝ)) ([] ++ [])) :=
  ⟨⟨rfl, rfl,
    (claim_C8_lookup_failure_drops_only_that_candidate.1 apiFail evTarget "12 Main St"
      [] [] evCand0 "34 Oak Ave" rfl rfl).1⟩,
   ⟨rfl,
    claim_C8_lookup_failure_drops_only_that_candidate.2 envKeyNoGeo evTarget
      ((0 : ℝ), (0 : ℝ)) [] [] evCand0 "34 Oak Ave" rfl rfl⟩⟩

/-- C9: the classifier partitions its input — an event is a target iff
its lowercased title contains the marker "need to book" (an event with
no title, or an empty title, is never a target), the two output lists
are memberwise disjoint, and together they are a permutation of the
input. -/
theorem claim_C9_classify_partition (es : List CalendarEvent) :
    (∀ e, e ∈ (classify es).1 ↔ e ∈ es ∧ classifyIsTarget e = true) ∧
    (∀ e, e ∈ (classify es).2 ↔ e ∈ es ∧ classifyIsTarget e = false) ∧
    (∀ e s, e.summary = some s →
      (classifyIsTarget e = true ↔ strContains (toLowerStr s) "need to book" = true)) ∧
    (∀ e, e.summary = none → classifyIsTarget e = false) ∧
    (∀ e, ¬ (e ∈ (classify es).1 ∧ e ∈ (classify es).2)) ∧
    ((classify es).1 ++ (classify es).2).Perm es := by
  refine ⟨?_, ?_, ?_, ?_, ?_, ?_⟩
  · intro e
    simp [classify, List.mem_filter]
  · intro e
    simp [classify, List.mem_filter]
  · intro e s hs
    unfold classifyIsTarget
    rw [hs]
    by_cases hempty : s = ""
    · subst hempty
      simp [strContains, toLowerStr, containsAux]
    · simp [hempty]
  · intro e hs
    unfold classifyIsTarget
    rw [hs]
  · intro e
    rintro ⟨h1, h2⟩
    unfold classify at h1 h2
    dsimp only at h1 h2
    rw [List.mem_filter] at h1 h2
    have hb := h1.2
    have hb2 := h2.2
    rw [hb] at hb2
    simp at hb2
  · exact List.filter_append_perm _ es

/-- Witness for C9: a target-titled and an ordinary event land in the
respective partition halves. -/
theorem claim_C9_witness :
    evTarget ∈ (classify [evTarget, evCand0]).1 ∧
    evCand0 ∈ (classify [evTarget, evCand0]).2 :=
  ⟨((claim_C9_classify_partition [evTarget, evCand0]).1 evTarget).mpr
      ⟨by simp, by decide⟩,
   ((claim_C9_classify_partition [evTarget, evCand0]).2.1 evCand0).mpr
      ⟨by simp, by decide⟩⟩

/-- C10: the geocode-strategy distance is the haversine great-circle
distance on a spherical Earth of radius 6371 km; it is non-negative for
all coordinates and zero for identical coordinates. -/
theorem claim_C10_haversine_nonneg_zero :
    (∀ lat1 lon1 lat2 lon2 : ℝ, 0 ≤ calculateDistance lat1 lon1 lat2 lon2) ∧
    (∀ lat lon : ℝ, calculateDistance lat lon lat lon = 0) := by
  have key : ∀ a : ℝ, 0 ≤ Complex.arg ⟨Real.sqrt (1 - a), Real.sqrt a⟩ := by
    intro a
    exact Complex.arg_nonneg_iff.mpr (Real.sqrt_nonneg a)
  have key2 : ∀ a : ℝ, 0 ≤ 6371 * (2 * Complex.arg ⟨Real.sqrt (1 - a), Real.sqrt a⟩) := by
    intro a
    have h := key a
    nlinarith [h]
  constructor
  · intro lat1 lon1 lat2 lon2
    unfold calculateDistance atan2
    dsimp only
    exact key2 _
  · intro lat lon
    unfold calculateDistance atan2
    simp only [sub_self, zero_mul, zero_div, Real.sin_zero, mul_zero, zero_add,
      add_zero, Real.sqrt_zero, sub_zero, Real.sqrt_one]
    have hone : (⟨1, 0⟩ : ℂ) = 1 := rfl
    rw [hone, Complex.arg_one]
    ring

end NeedToBook
